import Mathlib

/-!
Verification of the MCTIERS client-side data model (players editor
`assets/players.js` and the read-only viewer `players-view.js`).

The JavaScript source is shallowly embedded:
* JS values reachable in this code base (JSON data, form strings, numbers)
  are modelled by `JVal`; `undefined` is modelled by `Option JVal = none`
  where a field access may miss.
* JS numbers are restricted to integers plus `NaN` (`JNum := Option Int`,
  `none` = NaN); every numeric literal and every stored datum exercised by
  the claims is an integer, so no floating-point behaviour is needed.
* `localStorage` cells hold either a parsed JSON value (`Cell.json`) or
  text on which `JSON.parse` throws (`Cell.badText`); the host JSON
  parser/serialiser pair is modelled at the JSON-value level.
-/

namespace MCTiers

/-! ## Characters and strings

All string functions are defined on `List Char` and wrapped into `String`
through the `String.mk` constructor, mirroring the JS string primitives the
source uses (`trim`, `toLowerCase`, `endsWith`, `Number(...)` parsing,
`split(/\r?\n/)`). -/

/-- JS whitespace recognised by `String.prototype.trim` (ASCII subset). -/
def jsWS (c : Char) : Bool :=
  c = ' ' || c = '\t' || c = '\n' || c = '\r' || c = '\x0b' || c = '\x0c'

/-- Drop JS whitespace from both ends of a character list (JS `trim`). -/
def trimChars (l : List Char) : List Char :=
  ((l.dropWhile jsWS).reverse.dropWhile jsWS).reverse

/-- JS `s.trim()`. -/
def jsTrim (s : String) : String := ⟨trimChars s.data⟩

/-- JS `s.toLowerCase()` (ASCII). -/
def jsToLower (s : String) : String := ⟨s.data.map Char.toLower⟩

/-- JS `s.endsWith(t)`. -/
def jsEndsWith (s t : String) : Bool := t.data.isSuffixOf s.data

/-- The ten decimal digit characters. -/
def digitChars : List Char := ['0', '1', '2', '3', '4', '5', '6', '7', '8', '9']

/-- The character of a decimal digit value. -/
def digitChar (d : Nat) : Char := digitChars.getD d '0'

/-- Decimal digits of `n`, least significant first. -/
def natDigitsRev (n : Nat) : List Char :=
  if h : n < 10 then [digitChar n]
  else digitChar (n % 10) :: natDigitsRev (n / 10)
  decreasing_by exact Nat.div_lt_self (by omega) (by omega)

/-- Decimal rendering of a natural number (JS `String(n)` for `n ≥ 0`). -/
def natToString (n : Nat) : String := ⟨(natDigitsRev n).reverse⟩

/-- Decimal rendering of an integer (JS `String(n)` on integral numbers). -/
def intToString (n : Int) : String :=
  if n < 0 then ⟨'-' :: (natDigitsRev n.natAbs).reverse⟩ else natToString n.toNat

/-- Value of a decimal digit character, `none` on non-digits. -/
def digitVal (c : Char) : Option Nat :=
  if '0' ≤ c ∧ c ≤ '9' then some (c.toNat - 48) else none

/-- Fold a digit string into a natural number; `none` if any character is
not a decimal digit. -/
def digitsVal (acc : Nat) : List Char → Option Nat
  | [] => some acc
  | c :: cs =>
    match digitVal c with
    | some d => digitsVal (acc * 10 + d) cs
    | none => none

/-- Natural-number value of a non-empty all-digit string. -/
def natVal : List Char → Option Nat
  | [] => none
  | l => digitsVal 0 l

/-- JS `Number(s)` on a string, restricted to the integral fragment the
site's data uses: trims whitespace, the empty string is `0`, an optional
sign followed by decimal digits is that integer, anything else is NaN
(`none`). -/
def parseTrimmed : List Char → Option Int
  | [] => some 0
  | c :: cs =>
    if c = '+' then (natVal cs).map Int.ofNat
    else if c = '-' then (natVal cs).map (fun n => -(n : Int))
    else (natVal (c :: cs)).map Int.ofNat

/-- See `parseTrimmed`: `Number(s)` trims and parses. -/
def jsStringToNumber (s : String) : Option Int := parseTrimmed (trimChars s.data)

/-! ## JS values -/

/-- A JS number: an integer or NaN (`none`). -/
abbrev JNum := Option Int

/-- JS values occurring in this code base: JSON data plus the in-memory
values the editor constructs (`NaN` from failed numeric coercions). -/
inductive JVal where
  | null : JVal
  | bool : Bool → JVal
  | num : Int → JVal
  | nan : JVal
  | str : String → JVal
  | arr : List JVal → JVal
  | obj : List (String × JVal) → JVal
deriving Repr

/-- JS truthiness. -/
def truthy : JVal → Bool
  | .null => false
  | .bool b => b
  | .num n => n ≠ 0
  | .nan => false
  | .str s => s ≠ ""
  | .arr _ => true
  | .obj _ => true

/-- Comma-join for `Array.prototype.toString`. -/
def joinComma : List String → List Char
  | [] => []
  | [s] => s.data
  | s :: rest => s.data ++ ',' :: joinComma rest

mutual
/-- JS `String(v)` / `v.toString()` on the values above. -/
def toStringJS : JVal → String
  | .null => "null"
  | .bool true => "true"
  | .bool false => "false"
  | .num n => intToString n
  | .nan => "NaN"
  | .str s => s
  | .arr xs => ⟨joinComma (arrStrings xs)⟩
  | .obj _ => "[object Object]"

/-- Element strings for `Array.prototype.toString` (null renders empty). -/
def arrStrings : List JVal → List String
  | [] => []
  | .null :: xs => "" :: arrStrings xs
  | x :: xs => toStringJS x :: arrStrings xs
end

/-- JS `Number(v)` (ToNumber) on the values above; `none` is NaN. -/
def toNumber : JVal → JNum
  | .null => some 0
  | .bool b => some (if b then 1 else 0)
  | .num n => some n
  | .nan => none
  | .str s => jsStringToNumber s
  | .arr xs => jsStringToNumber (toStringJS (.arr xs))
  | .obj o => jsStringToNumber (toStringJS (.obj o))

/-- JS `x || 0` on a number: NaN and 0 collapse to 0. -/
def numOr0 (x : JNum) : Int :=
  match x with
  | none => 0
  | some k => k

/-- JS `a || b` where `a` may be `undefined` (`none`). -/
def jsOrV (a : Option JVal) (b : JVal) : JVal :=
  match a with
  | some v => if truthy v then v else b
  | none => b

/-- JS `a ?? b` where `a` may be `undefined` (`none`). -/
def jsNvl (a : Option JVal) (b : JVal) : JVal :=
  match a with
  | some .null => b
  | some v => v
  | none => b

/-- JS strict equality `a === b` on numbers: NaN compares unequal to
everything, including itself. -/
def strictNumEq (a b : JNum) : Bool :=
  match a, b with
  | some x, some y => x = y
  | _, _ => false

/-- First-match lookup of a key in a JS object's entry list. -/
def objLookup (o : List (String × JVal)) (k : String) : Option JVal :=
  (o.find? (fun p => p.1 = k)).map (·.2)

/-- JS object-spread entries of a value: objects contribute their entries,
strings and arrays contribute index-keyed entries, primitives contribute
nothing. -/
def spreadEntries : JVal → List (String × JVal)
  | .obj o => o
  | .str s => (s.data.enum).map (fun p => (natToString p.1, JVal.str ⟨[p.2]⟩))
  | .arr xs => (xs.enum).map (fun p => (natToString p.1, p.2))
  | _ => []

/-- JS `{...a, ...b}`: `a`'s keys in order with `b`'s values winning, then
`b`'s new keys in order. -/
def objMerge (a b : List (String × JVal)) : List (String × JVal) :=
  a.map (fun p =>
    match objLookup b p.1 with
    | some v => (p.1, v)
    | none => p)
  ++ b.filter (fun p => (objLookup a p.1).isNone)

/-! ## Source constants (`assets/players.js` lines 17–33) -/

/-- `TIER_ORDER`: the 10 canonical tier labels. -/
def TIER_ORDER : List String :=
  ["LT5", "HT5", "LT4", "HT4", "LT3", "HT3", "LT2", "HT2", "LT1", "HT1"]

/-- `mappingDefault`: the built-in default tier→points mapping, as the JS
object's entry list. -/
def mappingDefault : List (String × JVal) :=
  [("LT5", .num 10), ("HT5", .num 20), ("LT4", .num 30), ("HT4", .num 40),
   ("LT3", .num 50), ("HT3", .num 60), ("LT2", .num 70), ("HT2", .num 80),
   ("LT1", .num 90), ("HT1", .num 100)]

/-! ## Player records

`Player` is the canonical record shape of §3 of the spec: the exact shape
produced by `normalizePlayer` and stored by the editor.  `rank` and
`points` are JS numbers (integer or NaN), `name` and `tier` strings. -/

/-- A canonical player record (all four fields present; `rank`/`points`
JS numbers, `name`/`tier` strings). -/
structure Player where
  rank : JNum
  name : String
  tier : String
  points : JNum
deriving Repr, DecidableEq

/-- `initialData`: the fixed example seed dataset (points taken from
`mappingDefault` as in the source). -/
def initialData : List Player :=
  [⟨some 1, "XxPvPProxX", "HT1", some 100⟩,
   ⟨some 2, "SharpBlade", "LT2", some 70⟩,
   ⟨some 3, "NoobSlayer", "LT5", some 10⟩]

/-- A player record as the JS object the editor holds in memory (`NaN`
fields stay NaN). -/
def playerToJVal (p : Player) : JVal :=
  .obj [("rank", match p.rank with | some k => .num k | none => .nan),
        ("name", .str p.name),
        ("tier", .str p.tier),
        ("points", match p.points with | some k => .num k | none => .nan)]

/-- A player record as it lands in `localStorage` via `JSON.stringify`
(`NaN` serialises as `null`). -/
def playerToStoredJVal (p : Player) : JVal :=
  .obj [("rank", match p.rank with | some k => .num k | none => .null),
        ("name", .str p.name),
        ("tier", .str p.tier),
        ("points", match p.points with | some k => .num k | none => .null)]

/-- `JSON.stringify(players)` of a player list, at the JSON-value level. -/
def storedOfPlayers (ps : List Player) : JVal := .arr (ps.map playerToStoredJVal)

/-! ## The normalizer (`normalizePlayer`, lines 102–113) -/

/-- The fields of a heterogeneous input record that `normalizePlayer`
reads.  `none` models JS `undefined` (the field is absent). -/
structure RawItem where
  tier : Option JVal := none
  /-- `item.Tier` -/
  capTier : Option JVal := none
  /-- `item.TIER` -/
  allCapsTier : Option JVal := none
  points : Option JVal := none
  rank : Option JVal := none
  name : Option JVal := none
  player : Option JVal := none
  username : Option JVal := none

/-- `(item.points !== undefined && item.points !== null && item.points !== "")
? Number(item.points) : null` — `none` when no points value was supplied,
`some (toNumber v)` otherwise. -/
def providedPoints (item : RawItem) : Option JNum :=
  match item.points with
  | none => none
  | some .null => none
  | some (.str s) => if s = "" then none else some (toNumber (.str s))
  | some v => some (toNumber v)

/-- `normalizePlayer(item)` under tier mapping `m`:

```js
const tierVal = (item.tier || item.Tier || item.TIER || "").toString().trim();
const pointsProvided = (item.points !== undefined && item.points !== null
    && item.points !== "") ? Number(item.points) : null;
const points = (pointsProvided === null || Number.isNaN(pointsProvided))
    ? (tierMapping[tierVal] ?? 0) : Number(pointsProvided);
return { rank: Number(item.rank) || 0,
         name: String(item.name || item.player || item.username || "Unknown"),
         tier: tierVal || "",
         points: Number(points) || 0 };
```
-/
def normalizePlayer (m : List (String × JVal)) (item : RawItem) : Player :=
  let tierVal := jsTrim (toStringJS
    (jsOrV item.tier (jsOrV item.capTier (jsOrV item.allCapsTier (.str "")))))
  let pointsJ : JVal :=
    match providedPoints item with
    | none => jsNvl (objLookup m tierVal) (.num 0)
    | some none => jsNvl (objLookup m tierVal) (.num 0)
    | some (some k) => .num k
  { rank := some (numOr0 (match item.rank with
      | none => none
      | some v => toNumber v))
    name := toStringJS
      (jsOrV item.name (jsOrV item.player (jsOrV item.username (.str "Unknown"))))
    tier := tierVal
    points := some (numOr0 (toNumber pointsJ)) }

/-- The in-memory player object fed back into `normalizePlayer` (used to
state idempotence: the normalizer's output is a plain `{rank, name, tier,
points}` object). -/
def itemOfPlayer (p : Player) : RawItem :=
  { rank := some (match p.rank with | some k => .num k | none => .nan)
    name := some (.str p.name)
    tier := some (.str p.tier)
    points := some (match p.points with | some k => .num k | none => .nan) }

/-! ## Persistent store (`localStorage` under the two keys)

A cell is `none` when `localStorage.getItem` returns null (key absent),
`some (.json v)` when the stored text parses to the JSON value `v`, and
`some .badText` when `JSON.parse` throws on the stored text. -/

/-- One `localStorage` cell's contents. -/
inductive Cell where
  | json : JVal → Cell
  | badText : Cell

/-- The two cells the site uses: `mctiers_players_v1` and
`mctiers_tier_mapping_v1`. -/
structure Store where
  players : Option Cell
  mapping : Option Cell

/-- The seed dataset as the JSON value `JSON.stringify(initialData)`
writes. -/
def initialDataJ : List JVal := initialData.map playerToStoredJVal

/-- Editor `loadPlayers()` (lines 45–61): returns the loaded list (as JSON
values) and the store afterward.  Absent key, unparsable text and
non-array values all reseed the store with `initialData`. -/
def editorLoadPlayers (st : Store) : List JVal × Store :=
  match st.players with
  | none => (initialDataJ, { st with players := some (.json (.arr initialDataJ)) })
  | some .badText => (initialDataJ, { st with players := some (.json (.arr initialDataJ)) })
  | some (.json v) =>
    match v with
    | .arr xs => (xs, st)
    | _ => (initialDataJ, { st with players := some (.json (.arr initialDataJ)) })

/-- Editor `loadMapping()` (lines 69–84): absent key and unparsable text
reseed with `mappingDefault`; any value that parses is spread over the
defaults (`{...mappingDefault, ...parsed}`) with the store left as is. -/
def editorLoadMapping (st : Store) : List (String × JVal) × Store :=
  match st.mapping with
  | none => (mappingDefault, { st with mapping := some (.json (.obj mappingDefault)) })
  | some .badText => (mappingDefault, { st with mapping := some (.json (.obj mappingDefault)) })
  | some (.json v) => (objMerge mappingDefault (spreadEntries v), st)

/-- Viewer `loadPlayers()` (`players-view.js` lines 29–40): returns `[]`
on absent key, unparsable text or a non-array value; never writes. -/
def viewerLoadPlayers (st : Store) : List JVal :=
  match st.players with
  | none => []
  | some .badText => []
  | some (.json v) =>
    match v with
    | .arr xs => xs
    | _ => []

/-- Viewer `loadMapping()` (`players-view.js` lines 42–52): returns the
parsed value when it is truthy and `typeof` yields `'object'` (a JS object
or array — an array's index-keyed entries model the array case), else
`{}`; never writes. -/
def viewerLoadMapping (st : Store) : List (String × JVal) :=
  match st.mapping with
  | none => []
  | some .badText => []
  | some (.json v) =>
    match v with
    | .obj o => o
    | .arr xs => (xs.enum).map (fun p => (natToString p.1, p.2))
    | _ => []

/-! ## CSV parsing (`splitCSVLine` lines 278–298, `parseCSV` lines
300–311) -/

/-- The character loop of `splitCSVLine`: `inQ` is `inQuotes`, `cur` the
current field accumulated in reverse. -/
def splitCSVAux : List Char → Bool → List Char → List (List Char)
  | [], _, cur => [cur.reverse]
  | '"' :: '"' :: rest, true, cur => splitCSVAux rest true ('"' :: cur)
  | '"' :: rest, true, cur => splitCSVAux rest false cur
  | '"' :: rest, false, cur => splitCSVAux rest true cur
  | ',' :: rest, false, cur => cur.reverse :: splitCSVAux rest false []
  | c :: rest, inQ, cur => splitCSVAux rest inQ (c :: cur)

/-- `splitCSVLine(line)`: split one CSV line honouring double-quoted
fields (doubled quotes escape a literal quote, commas inside quotes are
not delimiters). -/
def splitCSVLine (line : String) : List String :=
  (splitCSVAux line.data false []).map (fun l => ⟨l⟩)

/-- `text.split(/\r?\n/)`: split on newlines, swallowing one carriage
return before each line feed. -/
def splitLinesChars (l : List Char) : List String :=
  (l.splitOn '\n').map (fun piece =>
    match piece.reverse with
    | '\r' :: rest => ⟨rest.reverse⟩
    | _ => ⟨piece⟩)

/-- A parsed CSV row: the JS object keyed by the lower-cased headers.
Later duplicate headers overwrite earlier ones, as JS property assignment
does. -/
def buildRow (headers : List String) (vals : List String) : List (String × JVal) :=
  (headers.enum).foldl
    (fun acc p =>
      let v : JVal := .str ((vals.get? p.1).getD "")
      if (acc.find? (fun q => q.1 = p.2)).isSome
      then acc.map (fun q => if q.1 = p.2 then (q.1, v) else q)
      else acc ++ [(p.2, v)])
    []

/-- `parseCSV(text)`: header row lower-cased and trimmed, every further
non-blank line split and keyed by header. -/
def parseCSV (text : String) : List (List (String × JVal)) :=
  let lines := (splitLinesChars text.data).filter (fun l => (jsTrim l).length ≠ 0)
  match lines with
  | [] => []
  | header :: rest =>
    let headers := (splitCSVLine header).map (fun h => jsToLower (jsTrim h))
    rest.map (fun line => buildRow headers (splitCSVLine line))

/-! ## Editor state and mutations

The in-memory `players` list is modelled at the canonical record type
`Player` (§3's invariant: all four fields present, `rank`/`points`
numbers, `name`/`tier` strings) — the shape every `normalizePlayer`
output and every record the editor itself persists has.  `alerts`
collects the `alert(...)` messages raised, newest first. -/

/-- The mutable module-level state of `assets/players.js` that the
claims touch. -/
structure EditorState where
  storePlayers : Option Cell
  storeMapping : Option Cell
  players : List Player
  tierMapping : List (String × JVal)
  alerts : List String

/-- `savePlayers()` (lines 63–67): persist `JSON.stringify(players)`
(the broadcast side effects carry no data and are not modelled). -/
def savePlayers (st : EditorState) : EditorState :=
  { st with storePlayers := some (.json (storedOfPlayers st.players)) }

/-- One JSON array element through `normalizePlayer`: accessing a property
of `null` throws a `TypeError`, every other JSON value yields its
properties (objects their entries, primitives and arrays `undefined`). -/
def rawItemOfJVal : JVal → RawItem
  | .obj o =>
    { tier := objLookup o "tier", capTier := objLookup o "Tier",
      allCapsTier := objLookup o "TIER", points := objLookup o "points",
      rank := objLookup o "rank", name := objLookup o "name",
      player := objLookup o "player", username := objLookup o "username" }
  | _ => {}

/-- `data.map(normalizePlayer)` over a JSON array: `Except.error` models
the thrown `TypeError` when an element is `null`. -/
def normalizeElem (m : List (String × JVal)) : JVal → Except Unit Player
  | .null => .error ()
  | v => .ok (normalizePlayer m (rawItemOfJVal v))

/-- The CSV row to raw-record projection of `importDataFromFile`
(lines 325–330): `{rank: r.rank ?? r.Rank ?? r.RANK, ...}`. -/
def rawItemOfRow (r : List (String × JVal)) : RawItem :=
  { rank := match objLookup r "rank" with
      | some v => some v
      | none => match objLookup r "Rank" with
        | some v => some v
        | none => objLookup r "RANK"
    name := match objLookup r "name" with
      | some v => some v
      | none => match objLookup r "Name" with
        | some v => some v
        | none => match objLookup r "NAME" with
          | some v => some v
          | none => objLookup r "player"
    tier := match objLookup r "tier" with
      | some v => some v
      | none => match objLookup r "Tier" with
        | some v => some v
        | none => objLookup r "TIER"
    points := match objLookup r "points" with
      | some v => some v
      | none => match objLookup r "Points" with
        | some v => some v
        | none => match objLookup r "POINTS" with
          | some v => some v
          | none => objLookup r "score" }

/-- Alert texts used by `importDataFromFile`. -/
def importFailMsg : String := "Failed to import file. See console for details."

/-- Success alert of `importDataFromFile`. -/
def importOkMsg : String := "Import successful. The list was replaced with the imported data."

/-- `importDataFromFile(file)` (lines 313–343) after the `FileReader`
delivers the text.  `fileName` is the file's name, `text` its contents,
and `json` the result of `JSON.parse(text)` (`none` when the parse
throws), so the host JSON parser is modelled at the value level.  A throw
anywhere in the `try` lands in the `catch`: alert, no mutation. -/
def importDataFromFile (fileName : String) (text : String) (json : Option JVal)
    (st : EditorState) : EditorState :=
  if jsEndsWith (jsToLower fileName) ".json" then
    match json with
    | none => { st with alerts := importFailMsg :: st.alerts }
    | some v =>
      match v with
      | .arr xs =>
        match xs.mapM (normalizeElem st.tierMapping) with
        | .ok ps =>
          let st' := savePlayers { st with players := ps }
          { st' with alerts := importOkMsg :: st'.alerts }
        | .error _ => { st with alerts := importFailMsg :: st.alerts }
      | _ => { st with alerts := importFailMsg :: st.alerts }
  else
    let rows := parseCSV text
    let ps := rows.map (fun r => normalizePlayer st.tierMapping (rawItemOfRow r))
    let st' := savePlayers { st with players := ps }
    { st' with alerts := importOkMsg :: st'.alerts }

/-- `downloadJSON()` (lines 345–356): the exported file's JSON value,
`JSON.stringify(players, null, 2)` at the value level. -/
def downloadJSONData (ps : List Player) : JVal := storedOfPlayers ps

/-- `applyMappingToAllPlayers()` (lines 360–366): guarded by `confirm`;
sets every record's points to `Number(tierMapping[p.tier] ?? 0)`. -/
def applyMappingToAllPlayers (confirmed : Bool) (st : EditorState) : EditorState :=
  if !confirmed then st
  else
    let st' := savePlayers { st with
      players := st.players.map (fun p =>
        { p with points := toNumber (jsNvl (objLookup st.tierMapping p.tier) (.num 0)) }) }
    { st' with alerts := "Applied mapping to all players." :: st'.alerts }

/-- `applyMappingToEmptyPlayers()` (lines 368–376): sets points from the
mapping only where `!p.points` (0 or NaN); no confirm guard. -/
def applyMappingToEmptyPlayers (st : EditorState) : EditorState :=
  let st' := savePlayers { st with
    players := st.players.map (fun p =>
      if !(match p.points with | some k => k ≠ 0 | none => false)
      then { p with points := toNumber (jsNvl (objLookup st.tierMapping p.tier) (.num 0)) }
      else p) }
  { st' with alerts := "Applied mapping to players with empty/zero points." :: st'.alerts }

/-! ## Row-action resolution (`renderTable`, lines 204–218)

A clicked row's cell texts are read back (`textContent` of the
`escapeHtml`-ed rendering is the original string) and matched against the
canonical list with `findIndex` and strict equality. -/

/-- The cell text a number renders as (`escapeHtml(p.rank)` /
`escapeHtml(p.points)` after `textContent` readback). -/
def numCellText (x : JNum) : String :=
  match x with
  | some k => intToString k
  | none => "NaN"

/-- JS `Array.prototype.findIndex`: index of the first match, `-1` when
none. -/
def findIndexJS (pred : α → Bool) (l : List α) : Int :=
  match l with
  | [] => -1
  | x :: xs =>
    if pred x then 0
    else
      let r := findIndexJS pred xs
      if r = -1 then -1 else r + 1

/-- The content match of the row-button handler:
`p.rank === Number(cells[0]) && p.name === cells[1] && p.tier === cells[2]
&& p.points === Number(cells[3])`. -/
def rowMatches (rankS nameS tierS pointsS : String) (p : Player) : Bool :=
  strictNumEq p.rank (jsStringToNumber rankS) && p.name = nameS &&
    p.tier = tierS && strictNumEq p.points (jsStringToNumber pointsS)

/-- `realIndex` computed by the row-button handler for a clicked row
displaying `row`'s four cells. -/
def resolveRowIndex (players : List Player) (row : Player) : Int :=
  findIndexJS
    (rowMatches (numCellText row.rank) row.name row.tier (numCellText row.points))
    players

/-- `doDelete(index)` (lines 261–268): no-op on `-1` or a declined
confirm, else `splice(index, 1)` and persist. -/
def doDelete (confirmed : Bool) (index : Int) (st : EditorState) : EditorState :=
  if index = -1 then st
  else if !confirmed then st
  else savePlayers { st with players := st.players.eraseIdx index.toNat }

/-- The record whose values `startEdit(index)` (lines 249–259) copies
into the form: `players[index]`, `none` when the index is `-1` (or out of
range). -/
def startEditTarget (index : Int) (players : List Player) : Option Player :=
  if index = -1 then none else players.get? index.toNat

/-! ## Form submission (lines 473–496) -/

/-- `(a.rank || 0)`: the comparator's rank with NaN (and 0) as 0. -/
def rankOr0 (p : Player) : Int := numOr0 p.rank

/-- The form-submit sort `players.sort((a,b) => (a.rank||0)-(b.rank||0))`,
modelled by a stable insertion sort with the comparator's order
(`Array.prototype.sort` is stable and sorts by the comparator). -/
def jsSortByRank (l : List Player) : List Player :=
  List.insertionSort (fun a b => rankOr0 a - rankOr0 b ≤ 0) l

instance : IsTotal Player (fun a b => rankOr0 a - rankOr0 b ≤ 0) :=
  ⟨fun a b => by omega⟩

instance : IsTrans Player (fun a b => rankOr0 a - rankOr0 b ≤ 0) :=
  ⟨fun a b c h1 h2 => by omega⟩

/-- The `playerForm` submit handler: field values are the raw strings of
the four inputs; `editingId` is the module variable (a `startEdit` index
or `null`).  Empty name alerts and saves nothing; otherwise the
normalized record is pushed (or replaces `players[editingId]`), the list
is sorted by rank and persisted. -/
def playerFormSubmit (rankS nameS tierS pointsS : String)
    (editingId : Option Nat) (st : EditorState) : EditorState :=
  let tierInput := jsTrim tierS
  let pointsInput : Option JNum :=
    if pointsS = "" then none else some (jsStringToNumber pointsS)
  let raw : RawItem :=
    { rank := some (.num (numOr0 (jsStringToNumber rankS)))
      name := some (.str (jsTrim nameS))
      tier := some (.str tierInput)
      points := some (match pointsInput with
        | none => jsNvl (objLookup st.tierMapping tierInput) (.num 0)
        | some (some k) => .num k
        | some none => .nan) }
  if jsTrim nameS = "" then
    { st with alerts := "Player name is required." :: st.alerts }
  else
    let p := normalizePlayer st.tierMapping raw
    let newList :=
      match editingId with
      | none => st.players ++ [p]
      | some i => st.players.set i p
    savePlayers { st with players := jsSortByRank newList }

/-! ## Helper lemmas: basic reductions -/

@[simp] theorem toStringJS_str (s : String) : toStringJS (.str s) = s := rfl

@[simp] theorem toStringJS_num (n : Int) : toStringJS (.num n) = intToString n := rfl

/-! ## Helper lemmas: trimming -/

theorem dropWhile_no_ws (l : List Char) (h : ∀ c ∈ l, jsWS c = false) :
    l.dropWhile jsWS = l := by
  cases l with
  | nil => rfl
  | cons c cs => exact List.dropWhile_cons_of_neg (by simp [h c (by simp)])

theorem trimChars_no_ws (l : List Char) (h : ∀ c ∈ l, jsWS c = false) :
    trimChars l = l := by
  unfold trimChars
  rw [dropWhile_no_ws l h, dropWhile_no_ws l.reverse (by simpa using h),
    List.reverse_reverse]

/-- The right-trim part of `trimChars` is a prefix of its input. -/
theorem rtrim_prefix (m : List Char) :
    ∃ s, m = (m.reverse.dropWhile jsWS).reverse ++ s := by
  obtain ⟨t, ht⟩ := List.dropWhile_suffix (l := m.reverse) jsWS
  refine ⟨t.reverse, ?_⟩
  calc m = m.reverse.reverse := by rw [List.reverse_reverse]
    _ = (t ++ m.reverse.dropWhile jsWS).reverse := by rw [ht]
    _ = (m.reverse.dropWhile jsWS).reverse ++ t.reverse := by rw [List.reverse_append]

theorem trimChars_idem (l : List Char) : trimChars (trimChars l) = trimChars l := by
  unfold trimChars
  set m := l.dropWhile jsWS with hm
  have hmm : m.dropWhile jsWS = m := by rw [hm, List.dropWhile_idempotent]
  set d := (m.reverse.dropWhile jsWS).reverse with hd
  have hstep : d.dropWhile jsWS = d := by
    obtain ⟨s, hs⟩ := rtrim_prefix m
    rw [← hd] at hs
    cases hdc : d with
    | nil => rfl
    | cons c u =>
      have hcw : jsWS c = false := by
        by_contra hcw
        have hcw' : jsWS c = true := by revert hcw; cases jsWS c <;> simp
        have : m.dropWhile jsWS = (u ++ s).dropWhile jsWS := by
          rw [hs, hdc, List.cons_append, List.dropWhile_cons_of_pos hcw']
        have hlen := congrArg List.length (hmm.symm.trans this)
        have hle := (List.dropWhile_sublist (l := u ++ s) jsWS).length_le
        have hm : m.length = u.length + s.length + 1 := by
          rw [hs, hdc]; simp [List.length_append]
        have happ : (u ++ s).length = u.length + s.length := List.length_append u s
        rw [hm] at hlen
        omega
      exact List.dropWhile_cons_of_neg (by simp [hcw])
  rw [hstep, List.reverse_reverse, List.dropWhile_idempotent]

theorem jsTrim_idem (s : String) : jsTrim (jsTrim s) = jsTrim s := by
  unfold jsTrim
  exact congrArg String.mk (trimChars_idem s.data)

/-! ## Helper lemmas: decimal rendering and parsing round-trip -/

theorem digitChar_props (d : Nat) (h : d < 10) :
    digitVal (digitChar d) = some d ∧ jsWS (digitChar d) = false ∧
      digitChar d ≠ '+' ∧ digitChar d ≠ '-' := by
  interval_cases d <;> exact ⟨by decide, by decide, by decide, by decide⟩

theorem natDigitsRev_props (n : Nat) :
    natDigitsRev n ≠ [] ∧
      ∀ c ∈ natDigitsRev n, ∃ d, d < 10 ∧ c = digitChar d := by
  induction n using Nat.strong_induction_on with
  | _ n ih =>
    unfold natDigitsRev
    split
    · next h =>
      exact ⟨by simp, by intro c hc; simp at hc; exact ⟨n, h, hc⟩⟩
    · next h =>
      have hrec := ih (n / 10) (Nat.div_lt_self (by omega) (by omega))
      refine ⟨by simp, ?_⟩
      intro c hc
      rcases List.mem_cons.mp hc with rfl | hc'
      · exact ⟨n % 10, Nat.mod_lt _ (by omega), rfl⟩
      · exact hrec.2 c hc'

theorem digitsVal_append (acc : Nat) (l₁ l₂ : List Char) :
    digitsVal acc (l₁ ++ l₂) =
      (digitsVal acc l₁).bind (fun a => digitsVal a l₂) := by
  induction l₁ generalizing acc with
  | nil => simp [digitsVal]
  | cons c cs ih =>
    simp only [List.cons_append, digitsVal]
    cases digitVal c with
    | none => simp
    | some d => simp [ih]

theorem digitsVal_natDigitsRev (n : Nat) : ∀ acc,
    digitsVal acc (natDigitsRev n).reverse =
      some (acc * 10 ^ (natDigitsRev n).length + n) := by
  induction n using Nat.strong_induction_on with
  | _ n ih =>
    intro acc
    unfold natDigitsRev
    split
    · next h =>
      simp only [List.reverse_singleton, digitsVal, (digitChar_props n h).1,
        List.length_singleton]
      simp [Nat.mul_comm]
    · next h =>
      have hrec := ih (n / 10) (Nat.div_lt_self (by omega) (by omega))
      rw [List.reverse_cons, digitsVal_append, hrec acc]
      have hd10 : digitVal (digitChar (n % 10)) = some (n % 10) :=
        (digitChar_props (n % 10) (Nat.mod_lt _ (by omega))).1
      simp only [Option.some_bind, digitsVal, hd10, List.length_cons]
      congr 1
      rw [Nat.pow_succ, ← Nat.mul_assoc]
      generalize acc * 10 ^ (natDigitsRev (n / 10)).length = A
      omega

theorem natVal_natDigitsRev (n : Nat) :
    natVal (natDigitsRev n).reverse = some n := by
  have hne : (natDigitsRev n).reverse ≠ [] := by
    have := (natDigitsRev_props n).1
    simpa using this
  cases hc : (natDigitsRev n).reverse with
  | nil => exact absurd hc hne
  | cons c cs =>
    show digitsVal 0 (c :: cs) = some n
    rw [← hc, digitsVal_natDigitsRev n 0]
    simp

/-- `Number(String(n)) = n` for every integer `n`: the display/readback
round-trip used by the row-action handler. -/
theorem jsStringToNumber_intToString (n : Int) :
    jsStringToNumber (intToString n) = some n := by
  have hchars : ∀ m : Nat, ∀ c ∈ (natDigitsRev m).reverse,
      jsWS c = false ∧ c ≠ '+' ∧ c ≠ '-' := by
    intro m c hc
    rw [List.mem_reverse] at hc
    obtain ⟨d, hd, rfl⟩ := (natDigitsRev_props m).2 c hc
    exact ⟨(digitChar_props d hd).2.1, (digitChar_props d hd).2.2.1,
      (digitChar_props d hd).2.2.2⟩
  by_cases hn : n < 0
  · have hs : intToString n = ⟨'-' :: (natDigitsRev n.natAbs).reverse⟩ := by
      unfold intToString; rw [if_pos hn]
    have htrim : trimChars ('-' :: (natDigitsRev n.natAbs).reverse) =
        '-' :: (natDigitsRev n.natAbs).reverse := by
      apply trimChars_no_ws
      intro c hc
      rcases List.mem_cons.mp hc with rfl | hc'
      · decide
      · exact (hchars n.natAbs c hc').1
    show parseTrimmed (trimChars (intToString n).data) = some n
    rw [hs]
    show parseTrimmed (trimChars ('-' :: (natDigitsRev n.natAbs).reverse)) = some n
    rw [htrim]
    show (if '-' = '+' then (natVal (natDigitsRev n.natAbs).reverse).map Int.ofNat
      else if '-' = '-' then
        (natVal (natDigitsRev n.natAbs).reverse).map (fun n => -(n : Int))
      else (natVal ('-' :: (natDigitsRev n.natAbs).reverse)).map Int.ofNat) = some n
    rw [if_neg (by decide), if_pos rfl, natVal_natDigitsRev]
    show some (-(n.natAbs : Int)) = some n
    congr 1
    omega
  · have hs : intToString n = ⟨(natDigitsRev n.toNat).reverse⟩ := by
      unfold intToString; rw [if_neg hn]; rfl
    have htrim : trimChars (natDigitsRev n.toNat).reverse =
        (natDigitsRev n.toNat).reverse := by
      apply trimChars_no_ws
      intro c hc
      exact (hchars n.toNat c hc).1
    show parseTrimmed (trimChars (intToString n).data) = some n
    rw [hs]
    show parseTrimmed (trimChars (natDigitsRev n.toNat).reverse) = some n
    rw [htrim]
    have hne : (natDigitsRev n.toNat).reverse ≠ [] := by
      have := (natDigitsRev_props n.toNat).1
      simpa using this
    cases hc : (natDigitsRev n.toNat).reverse with
    | nil => exact absurd hc hne
    | cons c cs =>
      have hcmem : c ∈ (natDigitsRev n.toNat).reverse := by rw [hc]; simp
      show (if c = '+' then (natVal cs).map Int.ofNat
        else if c = '-' then (natVal cs).map (fun n => -(n : Int))
        else (natVal (c :: cs)).map Int.ofNat) = some n
      rw [if_neg (hchars n.toNat c hcmem).2.1, if_neg (hchars n.toNat c hcmem).2.2]
      rw [← hc, natVal_natDigitsRev]
      show some ((n.toNat : Int)) = some n
      congr 1
      exact Int.toNat_of_nonneg (by omega)

/-! ## Helper lemmas: object spread merge -/

theorem objLookup_map_overwrite (a b : List (String × JVal)) (k : String) :
    objLookup (a.map (fun p =>
      match objLookup b p.1 with
      | some v => (p.1, v)
      | none => p)) k =
      (objLookup a k).map (fun w => (objLookup b k).getD w) := by
  induction a with
  | nil => rfl
  | cons p a' ih =>
    set f : (String × JVal) → (String × JVal) := fun q =>
      match objLookup b q.1 with
      | some v => (q.1, v)
      | none => q with hf
    have hkey : (f p).1 = p.1 := by
      simp only [hf]; cases objLookup b p.1 <;> rfl
    have hval : (f p).2 = (objLookup b p.1).getD p.2 := by
      simp only [hf]; cases objLookup b p.1 <;> rfl
    by_cases hpk : p.1 = k
    · have h1 : List.find? (fun q : String × JVal => decide (q.1 = k)) (f p :: a'.map f)
          = some (f p) :=
        List.find?_cons_of_pos _ (by simp [hkey, hpk])
      have h2 : List.find? (fun q : String × JVal => decide (q.1 = k)) (p :: a')
          = some p :=
        List.find?_cons_of_pos _ (by simp [hpk])
      unfold objLookup
      rw [List.map_cons, h1, h2]
      simp only [Option.map_some']
      rw [hval, hpk]
      rfl
    · have h1 : List.find? (fun q : String × JVal => decide (q.1 = k)) (f p :: a'.map f)
          = List.find? (fun q : String × JVal => decide (q.1 = k)) (a'.map f) :=
        List.find?_cons_of_neg _ (by simp [hkey, hpk])
      have h2 : List.find? (fun q : String × JVal => decide (q.1 = k)) (p :: a')
          = List.find? (fun q : String × JVal => decide (q.1 = k)) a' :=
        List.find?_cons_of_neg _ (by simp [hpk])
      unfold objLookup at ih ⊢
      rw [List.map_cons, h1, h2]
      exact ih

theorem objLookup_filter_new (a b : List (String × JVal)) (k : String)
    (ha : objLookup a k = none) :
    objLookup (b.filter (fun p => (objLookup a p.1).isNone)) k = objLookup b k := by
  induction b with
  | nil => rfl
  | cons p b' ih =>
    have hfc : (p :: b').filter (fun q => (objLookup a q.1).isNone) =
        if (objLookup a p.1).isNone then
          p :: b'.filter (fun q => (objLookup a q.1).isNone)
        else b'.filter (fun q => (objLookup a q.1).isNone) := by
      rw [List.filter_cons]
    by_cases hpk : p.1 = k
    · have hpass : (objLookup a p.1).isNone = true := by rw [hpk, ha]; rfl
      have hpos : ∀ B : List (String × JVal), objLookup (p :: B) k = some p.2 := by
        intro B
        have hx : List.find? (fun q : String × JVal => decide (q.1 = k)) (p :: B)
            = some p :=
          List.find?_cons_of_pos _ (by simp [hpk])
        unfold objLookup
        rw [hx]
        rfl
      rw [hfc, if_pos hpass, hpos, hpos]
    · have hskip : ∀ B : List (String × JVal), objLookup (p :: B) k = objLookup B k := by
        intro B
        have hx : List.find? (fun q : String × JVal => decide (q.1 = k)) (p :: B)
            = List.find? (fun q : String × JVal => decide (q.1 = k)) B :=
          List.find?_cons_of_neg _ (by simp [hpk])
        unfold objLookup
        rw [hx]
      cases hpass : (objLookup a p.1).isNone with
      | true => rw [hfc, if_pos hpass, hskip, hskip]; exact ih
      | false =>
        rw [hfc, if_neg (by simp [hpass]), hskip]
        exact ih

/-- `{...a}` with nothing spread over it is `a` itself. -/
theorem objMerge_nil (a : List (String × JVal)) : objMerge a [] = a := by
  unfold objMerge
  rw [List.filter_nil, List.append_nil]
  have hid : ∀ p : String × JVal,
      (match objLookup [] p.1 with
       | some v => (p.1, v)
       | none => p) = p := fun p => rfl
  simp only [hid]
  exact List.map_id' a

/-- The single fact the mapping merge needs: a key's value in
`{...a, ...b}` is `b`'s when present, else `a`'s. -/
theorem objLookup_objMerge (a b : List (String × JVal)) (k : String) :
    objLookup (objMerge a b) k = (objLookup b k).or (objLookup a k) := by
  unfold objMerge
  have happ : ∀ (x y : List (String × JVal)),
      objLookup (x ++ y) k = (objLookup x k).or (objLookup y k) := by
    intro x y
    simp only [objLookup, List.find?_append]
    cases List.find? (fun p => p.1 = k) x <;> simp
  rw [happ, objLookup_map_overwrite]
  cases ha : objLookup a k with
  | some w =>
    simp only [Option.map_some']
    cases hb : objLookup b k <;> simp
  | none =>
    simp only [Option.map_none']
    rw [objLookup_filter_new a b k ha]
    cases hb : objLookup b k <;> simp

/-! ## Claim C1 -/

/-- C1, counterexample: the claim asserts the default-overlay invariant
for the load operation of *every* view, but the read-only viewer's
`loadMapping` returns the stored object unchanged: with the mapping key
holding `{"LT5":10}` the viewer's load has no `"HT1"` entry, so not all
10 canonical labels are present. -/
theorem claim_C1_counterexample :
    objLookup (viewerLoadMapping ⟨none, some (.json (.obj [("LT5", .num 10)]))⟩) "HT1"
      = none ∧
    "HT1" ∈ TIER_ORDER ∧
    objLookup (viewerLoadMapping ⟨none, some (.json (.obj [("LT5", .num 10)]))⟩) "LT5"
      = some (.num 10) := by
  exact ⟨rfl, by decide, rfl⟩

/-- C1, amended: in the *editor*, for every stored mapping value that
parses as an object, `loadMapping` returns the built-in defaults overlaid
with the stored entries, so all 10 canonical labels are present and each
canonical label maps to the stored value when stored, else to the
default.  (The read-only viewer returns the stored object unchanged.) -/
theorem claim_C1_editor_load_merges_defaults (pc : Option Cell)
    (o : List (String × JVal)) :
    (∀ t ∈ TIER_ORDER,
      (objLookup (editorLoadMapping ⟨pc, some (.json (.obj o))⟩).1 t).isSome = true) ∧
    (∀ t ∈ TIER_ORDER,
      objLookup (editorLoadMapping ⟨pc, some (.json (.obj o))⟩).1 t
        = (objLookup o t).or (objLookup mappingDefault t)) := by
  have hload : (editorLoadMapping ⟨pc, some (.json (.obj o))⟩).1
      = objMerge mappingDefault o := rfl
  have hlk : ∀ t, objLookup (editorLoadMapping ⟨pc, some (.json (.obj o))⟩).1 t
      = (objLookup o t).or (objLookup mappingDefault t) := by
    intro t
    rw [hload, objLookup_objMerge]
  refine ⟨?_, fun t _ => hlk t⟩
  intro t ht
  rw [hlk t]
  have hdef : (objLookup mappingDefault t).isSome = true := by
    fin_cases ht <;> decide
  cases ho : objLookup o t
  · simpa [Option.or] using hdef
  · simp [Option.or]

/-- C1 witness: the claim scenario in the editor — stored `{"LT5":10}`
gives all 10 canonical keys, `LT5 = 10`, and e.g. `HT1` at its default
100. -/
theorem claim_C1_witness :
    (∀ t ∈ TIER_ORDER,
      (objLookup (editorLoadMapping ⟨none, some (.json (.obj [("LT5", .num 10)]))⟩).1
        t).isSome = true) ∧
    objLookup (editorLoadMapping ⟨none, some (.json (.obj [("LT5", .num 10)]))⟩).1 "LT5"
      = some (.num 10) ∧
    objLookup (editorLoadMapping ⟨none, some (.json (.obj [("LT5", .num 10)]))⟩).1 "HT1"
      = some (.num 100) := by
  refine ⟨(claim_C1_editor_load_merges_defaults none [("LT5", .num 10)]).1, ?_, ?_⟩
  · rw [(claim_C1_editor_load_merges_defaults none [("LT5", .num 10)]).2 "LT5" (by decide)]
    rfl
  · rw [(claim_C1_editor_load_merges_defaults none [("LT5", .num 10)]).2 "HT1" (by decide)]
    rfl

/-! ## Claim C2 -/

/-- C2, counterexample: the claim asserts the seed-and-return-default
behaviour for every view's loads, but the read-only viewer's
`loadPlayers` with the players key absent returns `[]` — not the fixed
example dataset — and writes nothing to the store. -/
theorem claim_C2_counterexample :
    viewerLoadPlayers ⟨none, none⟩ = [] ∧ initialDataJ ≠ [] := by
  constructor
  · rfl
  · intro h
    simp only [initialDataJ, initialData] at h
    exact absurd h (by simp)

/-- C2, amended: in the *editor*, `loadPlayers` returns the fixed example
dataset and reseeds the store whenever the stored value is absent,
unparsable, or parses to a non-array, and `loadMapping` returns the
default mapping and reseeds whenever the stored value is absent or
unparsable.  A stored mapping value that parses as any other JSON value
is left in the store unchanged and the returned mapping is the defaults
overlaid with the value's object-spread entries: exactly the default
mapping for numbers, booleans and null (which spread to nothing), and
the defaults overlaid with index-keyed entries for strings (their
characters) and arrays (their elements).  The read-only viewer's loads
return `[]`/`{}` on absence or parse failure and never write.  Neither
operation raises (both are total functions). -/
theorem claim_C2_load_fallbacks (st : Store) :
    (st.players = none → editorLoadPlayers st =
      (initialDataJ, { st with players := some (.json (.arr initialDataJ)) })) ∧
    (st.players = some .badText → editorLoadPlayers st =
      (initialDataJ, { st with players := some (.json (.arr initialDataJ)) })) ∧
    (∀ v, st.players = some (.json v) → (∀ xs, v ≠ .arr xs) → editorLoadPlayers st =
      (initialDataJ, { st with players := some (.json (.arr initialDataJ)) })) ∧
    (st.mapping = none → editorLoadMapping st =
      (mappingDefault, { st with mapping := some (.json (.obj mappingDefault)) })) ∧
    (st.mapping = some .badText → editorLoadMapping st =
      (mappingDefault, { st with mapping := some (.json (.obj mappingDefault)) })) ∧
    (∀ v, st.mapping = some (.json v) →
      editorLoadMapping st = (objMerge mappingDefault (spreadEntries v), st)) ∧
    (∀ n, st.mapping = some (.json (.num n)) →
      editorLoadMapping st = (mappingDefault, st)) ∧
    (∀ b, st.mapping = some (.json (.bool b)) →
      editorLoadMapping st = (mappingDefault, st)) ∧
    (st.mapping = some (.json .null) →
      editorLoadMapping st = (mappingDefault, st)) ∧
    (∀ s, st.mapping = some (.json (.str s)) →
      editorLoadMapping st = (objMerge mappingDefault
        ((s.data.enum).map (fun p => (natToString p.1, JVal.str ⟨[p.2]⟩))), st)) ∧
    (∀ xs, st.mapping = some (.json (.arr xs)) →
      editorLoadMapping st = (objMerge mappingDefault
        ((xs.enum).map (fun p => (natToString p.1, p.2))), st)) ∧
    (∀ mc, viewerLoadPlayers ⟨none, mc⟩ = [] ∧ viewerLoadPlayers ⟨some .badText, mc⟩ = []) ∧
    (∀ pc, viewerLoadMapping ⟨pc, none⟩ = [] ∧ viewerLoadMapping ⟨pc, some .badText⟩ = []) := by
  refine ⟨?_, ?_, ?_, ?_, ?_, ?_, ?_, ?_, ?_, ?_, ?_,
    fun mc => ⟨rfl, rfl⟩, fun pc => ⟨rfl, rfl⟩⟩
  · intro h; unfold editorLoadPlayers; rw [h]
  · intro h; unfold editorLoadPlayers; rw [h]
  · intro v h hv
    unfold editorLoadPlayers
    rw [h]
    cases v with
    | arr xs => exact absurd rfl (hv xs)
    | null => rfl
    | bool b => rfl
    | num n => rfl
    | nan => rfl
    | str s => rfl
    | obj o => rfl
  · intro h; unfold editorLoadMapping; rw [h]
  · intro h; unfold editorLoadMapping; rw [h]
  · intro v h; unfold editorLoadMapping; rw [h]
  · intro n h
    unfold editorLoadMapping
    rw [h]
    show (objMerge mappingDefault (spreadEntries (JVal.num n)), st) = (mappingDefault, st)
    rw [show spreadEntries (JVal.num n) = [] from rfl, objMerge_nil]
  · intro b h
    unfold editorLoadMapping
    rw [h]
    show (objMerge mappingDefault (spreadEntries (JVal.bool b)), st) = (mappingDefault, st)
    rw [show spreadEntries (JVal.bool b) = [] from rfl, objMerge_nil]
  · intro h
    unfold editorLoadMapping
    rw [h]
    show (objMerge mappingDefault (spreadEntries JVal.null), st) = (mappingDefault, st)
    rw [show spreadEntries JVal.null = [] from rfl, objMerge_nil]
  · intro s h
    unfold editorLoadMapping
    rw [h]
    rfl
  · intro xs h
    unfold editorLoadMapping
    rw [h]
    rfl

/-- C2 witness: the amended behaviour at concrete stores — an absent
players key reseeds and returns the example data; a non-array stored
players value (`5`) reseeds; an unparsable mapping reseeds; a stored
mapping value parsing to the number 5 returns exactly the defaults with
the store untouched; the viewer returns `[]` on an absent key. -/
theorem claim_C2_witness :
    editorLoadPlayers ⟨none, none⟩ =
      (initialDataJ, ⟨some (.json (.arr initialDataJ)), none⟩) ∧
    editorLoadPlayers ⟨some (.json (.num 5)), none⟩ =
      (initialDataJ, ⟨some (.json (.arr initialDataJ)), none⟩) ∧
    editorLoadMapping ⟨none, some .badText⟩ =
      (mappingDefault, ⟨none, some (.json (.obj mappingDefault))⟩) ∧
    editorLoadMapping ⟨none, some (.json (.num 5))⟩ =
      (mappingDefault, ⟨none, some (.json (.num 5))⟩) ∧
    viewerLoadPlayers ⟨none, none⟩ = [] := by
  obtain ⟨hp1, -, -, -, -, -, -, -, -, -, -, hv1, -⟩ :=
    claim_C2_load_fallbacks ⟨none, none⟩
  obtain ⟨-, -, hp3, -⟩ := claim_C2_load_fallbacks ⟨some (.json (.num 5)), none⟩
  obtain ⟨-, -, -, -, hm5, -⟩ := claim_C2_load_fallbacks ⟨none, some .badText⟩
  obtain ⟨-, -, -, -, -, -, hm7, -⟩ :=
    claim_C2_load_fallbacks ⟨none, some (.json (.num 5))⟩
  exact ⟨hp1 rfl, hp3 (.num 5) rfl (fun xs h => by cases h), hm5 rfl,
    hm7 5 rfl, (hv1 none).1⟩

/-! ## Claim C3 -/

/-- `normalizePlayer` on a canonical `{rank, name, tier, points}` object
with numeric rank/points, a non-empty name, and an already-trimmed tier
is the identity. -/
theorem normalizePlayer_canonical (m : List (String × JVal)) (r pt : Int)
    (nm tr : String) (hnm : nm ≠ "") (htr : jsTrim tr = tr) :
    normalizePlayer m
      { rank := some (.num r), name := some (.str nm),
        tier := some (.str tr), points := some (.num pt) } =
      ⟨some r, nm, tr, some pt⟩ := by
  unfold normalizePlayer providedPoints
  by_cases htr0 : tr = ""
  · subst htr0
    simp only [jsOrV, truthy, toStringJS_str, toNumber, numOr0]
    simp [htr, hnm]
  · simp only [jsOrV, truthy, toStringJS_str, toNumber, numOr0]
    simp [htr, hnm, htr0]

/-- C3, counterexample: `normalize` is not idempotent.  For the input
`{name: []}` (an empty-array name, as JSON import can supply) the first
normalization yields `name = ""` (JS `String([]) = ""`), and normalizing
that output again changes the name to `"Unknown"`. -/
theorem claim_C3_counterexample :
    normalizePlayer mappingDefault
        (itemOfPlayer (normalizePlayer mappingDefault { name := some (.arr []) }))
      ≠ normalizePlayer mappingDefault { name := some (.arr []) } := by
  decide

/-- C3, amended: with the tier mapping held fixed, `normalize` is
idempotent on every input whose normalized name is non-empty (the only
inputs breaking idempotence are those whose name field is a truthy value
with empty string rendering, such as `[]`). -/
theorem claim_C3_normalize_idempotent (m : List (String × JVal)) (x : RawItem)
    (h : (normalizePlayer m x).name ≠ "") :
    normalizePlayer m (itemOfPlayer (normalizePlayer m x)) = normalizePlayer m x := by
  obtain ⟨r, hr⟩ : ∃ r, (normalizePlayer m x).rank = some r := ⟨_, rfl⟩
  obtain ⟨pt, hp⟩ : ∃ pt, (normalizePlayer m x).points = some pt := ⟨_, rfl⟩
  have htr : jsTrim (normalizePlayer m x).tier = (normalizePlayer m x).tier :=
    jsTrim_idem _
  have hitem : itemOfPlayer (normalizePlayer m x) =
      { rank := some (.num r), name := some (.str (normalizePlayer m x).name),
        tier := some (.str (normalizePlayer m x).tier), points := some (.num pt) } := by
    unfold itemOfPlayer
    rw [hr, hp]
  rw [hitem, normalizePlayer_canonical m r pt _ _ h htr]
  cases hq : normalizePlayer m x with
  | mk rank name tier points =>
    rw [hq] at hr hp
    simp at hr hp
    rw [hr, hp]

/-- C3 witness: idempotence at a concrete input with a non-empty
normalized name. -/
theorem claim_C3_witness :
    (normalizePlayer mappingDefault { name := some (.str "Steve"), tier := some (.str " HT1 ") }).name ≠ "" ∧
    normalizePlayer mappingDefault (itemOfPlayer (normalizePlayer mappingDefault { name := some (.str "Steve"), tier := some (.str " HT1 ") }))
      = normalizePlayer mappingDefault { name := some (.str "Steve"), tier := some (.str " HT1 ") } := by
  exact ⟨by decide,
    claim_C3_normalize_idempotent mappingDefault
      { name := some (.str "Steve"), tier := some (.str " HT1 ") } (by decide)⟩

/-! ## Claim C4 -/

/-- C4, counterexample: the output's `points` is not always
non-negative — a supplied negative numeric points value is kept as is. -/
theorem claim_C4_counterexample :
    (normalizePlayer mappingDefault { points := some (.num (-5)) }).points
      = some (-5) ∧ ¬ (0 ≤ (-5 : Int)) := by
  exact ⟨by decide, by decide⟩

/-- C4, amended: `normalize`'s output `points` is always an actual number
(never NaN); and whenever the input supplies no usable numeric points
(absent, null, empty, or a value coercing to NaN) and the mapping's
values are non-negative numbers, the output `points` is ≥ 0 — it is the
tier-mapped value, defaulting to 0 when the tier is absent from the
mapping.  A supplied negative numeric points value, however, is kept. -/
theorem claim_C4_points_total_and_nonneg (m : List (String × JVal)) (x : RawItem) :
    (∃ k, (normalizePlayer m x).points = some k) ∧
    ((∀ e ∈ m, ∃ k, e.2 = JVal.num k ∧ 0 ≤ k) →
      (providedPoints x = none ∨ providedPoints x = some none) →
      ∃ k, (normalizePlayer m x).points = some k ∧ 0 ≤ k) := by
  constructor
  · exact ⟨_, rfl⟩
  · intro hm hpp
    have hpoints : (normalizePlayer m x).points =
        some (numOr0 (toNumber (jsNvl (objLookup m
          (jsTrim (toStringJS (jsOrV x.tier (jsOrV x.capTier
            (jsOrV x.allCapsTier (.str ""))))))) (.num 0)))) := by
      unfold normalizePlayer
      rcases hpp with hpp | hpp <;> rw [hpp]
    set t := jsTrim (toStringJS (jsOrV x.tier (jsOrV x.capTier
      (jsOrV x.allCapsTier (.str ""))))) with ht
    cases hlk : objLookup m t with
    | none =>
      rw [hpoints]
      refine ⟨0, ?_, le_refl 0⟩
      rw [hlk]
      rfl
    | some v =>
      have hv : ∃ e ∈ m, e.2 = v := by
        unfold objLookup at hlk
        cases hfind : List.find? (fun p => p.1 = t) m with
        | none => rw [hfind] at hlk; cases hlk
        | some e =>
          rw [hfind] at hlk
          simp only [Option.map_some'] at hlk
          exact ⟨e, List.mem_of_find?_eq_some hfind, Option.some.inj hlk⟩
      obtain ⟨e, hmem, hev⟩ := hv
      obtain ⟨k, hek, hk0⟩ := hm e hmem
      rw [hpoints, hlk]
      refine ⟨k, ?_, hk0⟩
      rw [hev] at hek
      rw [hek]
      rfl

/-- C4 witness: at `points: "abc"` (and an absent points field) under the
default mapping the output points is a number ≥ 0. -/
theorem claim_C4_witness :
    (∃ k, (normalizePlayer mappingDefault
      { points := some (.str "abc"), tier := some (.str "HT1") }).points = some k) ∧
    (∃ k, (normalizePlayer mappingDefault
      { points := some (.str "abc"), tier := some (.str "HT1") }).points
        = some k ∧ 0 ≤ k) := by
  refine ⟨(claim_C4_points_total_and_nonneg mappingDefault _).1, ?_⟩
  exact (claim_C4_points_total_and_nonneg mappingDefault
      { points := some (.str "abc"), tier := some (.str "HT1") }).2
    (by intro e he; fin_cases he <;> exact ⟨_, rfl, by norm_num⟩) (by decide)

/-! ## Claim C5 -/

/-- The raw item a round-tripped canonical record presents to the
normalizer. -/
theorem rawItemOfJVal_stored (r pt : Int) (nm tr : String) :
    rawItemOfJVal (playerToStoredJVal ⟨some r, nm, tr, some pt⟩) =
      { rank := some (.num r), name := some (.str nm),
        tier := some (.str tr), points := some (.num pt) } := rfl

/-- Normalizing the exported JSON values of a list of canonical records
(non-empty names, trimmed tiers, numeric fields) recovers the list. -/
theorem mapM_normalizeElem_stored (m : List (String × JVal)) (ps : List Player)
    (h : ∀ p ∈ ps, p.name ≠ "" ∧ jsTrim p.tier = p.tier ∧
      (∃ r, p.rank = some r) ∧ (∃ k, p.points = some k)) :
    (ps.map playerToStoredJVal).mapM (normalizeElem m) = Except.ok ps := by
  induction ps with
  | nil => rfl
  | cons p ps' ih =>
    obtain ⟨hn, htr, ⟨r, hr⟩, ⟨pt, hpt⟩⟩ := h p (List.mem_cons_self p ps')
    have hp : p = ⟨some r, p.name, p.tier, some pt⟩ := by
      cases p
      simp only at hr hpt ⊢
      rw [hr, hpt]
    have hone : normalizeElem m (playerToStoredJVal p) = .ok p := by
      rw [hp]
      show Except.ok (normalizePlayer m
        (rawItemOfJVal (playerToStoredJVal ⟨some r, p.name, p.tier, some pt⟩))) = _
      rw [rawItemOfJVal_stored,
        normalizePlayer_canonical m r pt p.name p.tier (by rw [← hp] at *; exact hn)
          (by rw [← hp] at *; exact htr)]
    rw [List.map_cons, List.mapM_cons, hone,
      ih (fun q hq => h q (List.mem_cons_of_mem p hq))]
    rfl

/-- C5, counterexample: the round-trip is not the identity on every list
satisfying the §3 invariant — a record with the (string-typed but empty)
name `""` comes back with name `"Unknown"`. -/
theorem claim_C5_counterexample :
    (importDataFromFile "players.json" ""
        (some (downloadJSONData [⟨some 1, "", "HT1", some 5⟩]))
        ⟨none, none, [⟨some 1, "", "HT1", some 5⟩], mappingDefault, []⟩).players
      ≠ [⟨some 1, "", "HT1", some 5⟩] := by
  decide

/-- C5, amended: exporting and re-importing recovers the player list
exactly (values and order) for every list of records with all four fields
present, numeric rank and points, a non-empty name, and a tier with no
surrounding whitespace; records with an empty name (renamed to
`"Unknown"`) or an untrimmed tier (trimmed) are the only §3-conformant
exceptions. -/
theorem claim_C5_roundtrip (st : EditorState) (ps : List Player)
    (h : ∀ p ∈ ps, p.name ≠ "" ∧ jsTrim p.tier = p.tier ∧
      (∃ r, p.rank = some r) ∧ (∃ k, p.points = some k)) :
    (importDataFromFile "players.json" "" (some (downloadJSONData ps)) st).players = ps ∧
    (importDataFromFile "players.json" "" (some (downloadJSONData ps)) st).alerts
      = importOkMsg :: st.alerts := by
  have hname : jsEndsWith (jsToLower "players.json") ".json" = true := by decide
  have hmapM := mapM_normalizeElem_stored st.tierMapping ps h
  have key : importDataFromFile "players.json" "" (some (downloadJSONData ps)) st =
      (let st' := savePlayers { st with players := ps }
       { st' with alerts := importOkMsg :: st'.alerts }) := by
    unfold importDataFromFile
    rw [if_pos hname]
    show (match (ps.map playerToStoredJVal).mapM (normalizeElem st.tierMapping) with
      | .ok qs =>
        let st' := savePlayers { st with players := qs }
        { st' with alerts := importOkMsg :: st'.alerts }
      | .error _ => { st with alerts := importFailMsg :: st.alerts }) = _
    rw [hmapM]
  rw [key]
  exact ⟨rfl, rfl⟩

/-- C5 witness: the round-trip at a concrete two-record list. -/
theorem claim_C5_witness :
    (importDataFromFile "players.json" ""
        (some (downloadJSONData [⟨some 1, "Alice", "HT1", some 100⟩, ⟨some 2, "Bob", "", some 0⟩]))
        ⟨none, none, [], mappingDefault, []⟩).players
      = [⟨some 1, "Alice", "HT1", some 100⟩, ⟨some 2, "Bob", "", some 0⟩] := by
  exact (claim_C5_roundtrip ⟨none, none, [], mappingDefault, []⟩
    [⟨some 1, "Alice", "HT1", some 100⟩, ⟨some 2, "Bob", "", some 0⟩]
    (by intro p hp; fin_cases hp <;>
      exact ⟨by decide, by decide, ⟨_, rfl⟩, ⟨_, rfl⟩⟩)).1

/-! ## Claim C6 -/

/-- C6: JSON import atomicity and raises-iff.  For a `.json` file: every
content that is not a top-level array (including unparsable text) or
whose elements do not all normalize leaves the players, both store keys,
the mapping — the whole previous state — untouched and raises the failure
alert; the success alert, list replacement and store write happen exactly
when the content is a parsable top-level array whose elements all
normalize without error. -/
theorem claim_C6_json_import_atomicity (fileName text : String) (json : Option JVal)
    (st : EditorState) (hname : jsEndsWith (jsToLower fileName) ".json" = true) :
    ((json = none ∨ (∃ v, json = some v ∧ ∀ xs, v ≠ .arr xs) ∨
      (∃ xs, json = some (.arr xs) ∧
        ∀ qs, xs.mapM (normalizeElem st.tierMapping) ≠ .ok qs)) →
      importDataFromFile fileName text json st =
        { st with alerts := importFailMsg :: st.alerts }) ∧
    (∀ xs qs, json = some (.arr xs) →
      xs.mapM (normalizeElem st.tierMapping) = .ok qs →
      importDataFromFile fileName text json st =
        { storePlayers := some (.json (storedOfPlayers qs)),
          storeMapping := st.storeMapping, players := qs,
          tierMapping := st.tierMapping, alerts := importOkMsg :: st.alerts }) ∧
    ((importDataFromFile fileName text json st).alerts = importOkMsg :: st.alerts ↔
      ∃ xs qs, json = some (.arr xs) ∧
        xs.mapM (normalizeElem st.tierMapping) = .ok qs) := by
  have hbase : importDataFromFile fileName text json st =
      (match json with
       | none => { st with alerts := importFailMsg :: st.alerts }
       | some v =>
         match v with
         | .arr xs =>
           match xs.mapM (normalizeElem st.tierMapping) with
           | .ok ps =>
             let st' := savePlayers { st with players := ps }
             { st' with alerts := importOkMsg :: st'.alerts }
           | .error _ => { st with alerts := importFailMsg :: st.alerts }
         | _ => { st with alerts := importFailMsg :: st.alerts }) := by
    unfold importDataFromFile
    rw [if_pos hname]
  have hsucc : ∀ xs qs, json = some (.arr xs) →
      xs.mapM (normalizeElem st.tierMapping) = .ok qs →
      importDataFromFile fileName text json st =
        { storePlayers := some (.json (storedOfPlayers qs)),
          storeMapping := st.storeMapping, players := qs,
          tierMapping := st.tierMapping, alerts := importOkMsg :: st.alerts } := by
    intro xs qs hj hm
    rw [hbase, hj]
    show (match xs.mapM (normalizeElem st.tierMapping) with
      | .ok ps =>
        let st' := savePlayers { st with players := ps }
        { st' with alerts := importOkMsg :: st'.alerts }
      | .error _ => { st with alerts := importFailMsg :: st.alerts }) = _
    rw [hm]
    rfl
  have hfail : (json = none ∨ (∃ v, json = some v ∧ ∀ xs, v ≠ .arr xs) ∨
      (∃ xs, json = some (.arr xs) ∧
        ∀ qs, xs.mapM (normalizeElem st.tierMapping) ≠ .ok qs)) →
      importDataFromFile fileName text json st =
        { st with alerts := importFailMsg :: st.alerts } := by
    intro hcase
    rw [hbase]
    rcases hcase with hj | ⟨v, hj, hv⟩ | ⟨xs, hj, hm⟩
    · rw [hj]
    · rw [hj]
      cases v with
      | arr xs => exact absurd rfl (hv xs)
      | null => rfl
      | bool b => rfl
      | num n => rfl
      | nan => rfl
      | str s => rfl
      | obj o => rfl
    · rw [hj]
      show (match xs.mapM (normalizeElem st.tierMapping) with
        | .ok ps =>
          let st' := savePlayers { st with players := ps }
          { st' with alerts := importOkMsg :: st'.alerts }
        | .error _ => { st with alerts := importFailMsg :: st.alerts }) = _
      cases he : xs.mapM (normalizeElem st.tierMapping) with
      | ok qs => exact absurd he (hm qs)
      | error e => rfl
  refine ⟨hfail, hsucc, ?_, ?_⟩
  · intro halert
    have hne : importFailMsg ≠ importOkMsg := by decide
    cases hj : json with
    | none =>
      rw [hfail (Or.inl hj)] at halert
      exact absurd (List.head_eq_of_cons_eq halert) hne
    | some v =>
      cases v with
      | arr xs =>
        cases he : xs.mapM (normalizeElem st.tierMapping) with
        | ok qs => exact ⟨xs, qs, rfl, he⟩
        | error e =>
          rw [hfail (Or.inr (Or.inr ⟨xs, hj, fun qs hq => by rw [he] at hq; cases hq⟩))]
            at halert
          exact absurd (List.head_eq_of_cons_eq halert) hne
      | null =>
        rw [hfail (Or.inr (Or.inl ⟨_, hj, fun xs h => by cases h⟩))] at halert
        exact absurd (List.head_eq_of_cons_eq halert) hne
      | bool b =>
        rw [hfail (Or.inr (Or.inl ⟨_, hj, fun xs h => by cases h⟩))] at halert
        exact absurd (List.head_eq_of_cons_eq halert) hne
      | num n =>
        rw [hfail (Or.inr (Or.inl ⟨_, hj, fun xs h => by cases h⟩))] at halert
        exact absurd (List.head_eq_of_cons_eq halert) hne
      | nan =>
        rw [hfail (Or.inr (Or.inl ⟨_, hj, fun xs h => by cases h⟩))] at halert
        exact absurd (List.head_eq_of_cons_eq halert) hne
      | str s =>
        rw [hfail (Or.inr (Or.inl ⟨_, hj, fun xs h => by cases h⟩))] at halert
        exact absurd (List.head_eq_of_cons_eq halert) hne
      | obj o =>
        rw [hfail (Or.inr (Or.inl ⟨_, hj, fun xs h => by cases h⟩))] at halert
        exact absurd (List.head_eq_of_cons_eq halert) hne
  · rintro ⟨xs, qs, hj, hm⟩
    rw [hsucc xs qs hj hm]

/-- C6 witness: atomicity at concrete inputs — unparsable text, a
non-array (`{}`), and an array containing `null` all leave the state
untouched except for the failure alert, while a good array succeeds. -/
theorem claim_C6_witness :
    importDataFromFile "a.json" "x" none ⟨none, none, initialData, mappingDefault, []⟩ =
      ⟨none, none, initialData, mappingDefault, [importFailMsg]⟩ ∧
    importDataFromFile "a.json" "" (some (.obj [])) ⟨none, none, initialData, mappingDefault, []⟩ =
      ⟨none, none, initialData, mappingDefault, [importFailMsg]⟩ ∧
    importDataFromFile "a.json" "" (some (.arr [.null])) ⟨none, none, initialData, mappingDefault, []⟩ =
      ⟨none, none, initialData, mappingDefault, [importFailMsg]⟩ ∧
    (importDataFromFile "a.json" "" (some (.arr []))
      ⟨none, none, initialData, mappingDefault, []⟩).alerts = [importOkMsg] := by
  refine ⟨(claim_C6_json_import_atomicity "a.json" "x" none _ (by decide)).1 (Or.inl rfl),
    (claim_C6_json_import_atomicity "a.json" "" (some (.obj [])) _ (by decide)).1
      (Or.inr (Or.inl ⟨_, rfl, fun xs h => by cases h⟩)),
    (claim_C6_json_import_atomicity "a.json" "" (some (.arr [.null])) _ (by decide)).1
      (Or.inr (Or.inr ⟨[.null], rfl, fun qs h => by cases h⟩)),
    ?_⟩
  rw [(claim_C6_json_import_atomicity "a.json" "" (some (.arr [])) _ (by decide)).2.1
    [] [] rfl rfl]

/-! ## Claim C7 -/

/-- CSV quoting of a field's text: double every embedded quote (used to
state the quoted-field property of C7). -/
def escCSV : List Char → List Char
  | [] => []
  | c :: cs => if c = '"' then '"' :: '"' :: escCSV cs else c :: escCSV cs

theorem splitCSVAux_acc_inq (c : Char) (hq : c ≠ '"') (rest cur : List Char) :
    splitCSVAux (c :: rest) true cur = splitCSVAux rest true (c :: cur) := by
  simp [splitCSVAux, hq]

theorem splitCSVAux_other (c : Char) (hq : c ≠ '"') (hc : c ≠ ',')
    (rest cur : List Char) (inQ : Bool) :
    splitCSVAux (c :: rest) inQ cur = splitCSVAux rest inQ (c :: cur) := by
  simp [splitCSVAux, hq, hc]

theorem splitCSVAux_open (rest cur : List Char) :
    splitCSVAux ('"' :: rest) false cur = splitCSVAux rest true cur := by
  cases rest with
  | nil => rfl
  | cons d rest' =>
    rcases eq_or_ne d '"' with rfl | hd
    · rfl
    · simp [splitCSVAux, hd]

/-- Scanning an escaped field body inside quotes accumulates exactly the
unescaped text, up to the closing quote followed by a comma. -/
theorem splitCSVAux_esc (f : List Char) : ∀ (g cur : List Char),
    splitCSVAux (escCSV f ++ '"' :: ',' :: g) true cur =
      splitCSVAux (',' :: g) false (f.reverse ++ cur) := by
  induction f with
  | nil => intro g cur; simp [escCSV]; rfl
  | cons c f' ih =>
    intro g cur
    by_cases hc : c = '"'
    · subst hc
      show splitCSVAux ('"' :: '"' :: (escCSV f' ++ '"' :: ',' :: g)) true cur = _
      rw [show splitCSVAux ('"' :: '"' :: (escCSV f' ++ '"' :: ',' :: g)) true cur
          = splitCSVAux (escCSV f' ++ '"' :: ',' :: g) true ('"' :: cur) from rfl]
      rw [ih g ('"' :: cur)]
      simp [List.reverse_cons, List.append_assoc]
    · have hesc : escCSV (c :: f') = c :: escCSV f' := by simp [escCSV, hc]
      rw [hesc, List.cons_append, splitCSVAux_acc_inq c hc, ih g (c :: cur)]
      simp [List.reverse_cons, List.append_assoc]

/-- Scanning outside quotes over delimiter-free text yields one field. -/
theorem splitCSVAux_plain (g : List Char) : ∀ cur : List Char,
    (∀ c ∈ g, c ≠ '"' ∧ c ≠ ',') →
    splitCSVAux g false cur = [cur.reverse ++ g] := by
  induction g with
  | nil => intro cur _; simp [splitCSVAux]
  | cons c g' ih =>
    intro cur h
    obtain ⟨hq, hc⟩ := h c (by simp)
    rw [splitCSVAux_other c hq hc, ih (c :: cur) (fun d hd => h d (by simp [hd]))]
    simp [List.reverse_cons, List.append_assoc]

/-- C7: CSV splitting honours double-quote-enclosed fields.  In general,
a line consisting of a quoted field (embedded quotes doubled) followed by
a comma and a plain field splits into exactly the unescaped field and the
plain field; and concretely, importing the CSV file
`rank,name,tier,points` / `1,"Smith, ""The Rock""",HT1,100` yields one
record whose name is `Smith, "The Rock"` (with rank 1, tier HT1,
points 100), in every editor state. -/
theorem claim_C7_csv_quoted_fields :
    (∀ f g : List Char, (∀ c ∈ g, c ≠ '"' ∧ c ≠ ',') →
      splitCSVLine ⟨'"' :: (escCSV f ++ '"' :: ',' :: g)⟩ = [⟨f⟩, ⟨g⟩]) ∧
    (∀ st : EditorState,
      (importDataFromFile "players.csv"
        "rank,name,tier,points\n1,\"Smith, \"\"The Rock\"\"\",HT1,100" none st).players
      = [⟨some 1, "Smith, \"The Rock\"", "HT1", some 100⟩]) := by
  constructor
  · intro f g h
    unfold splitCSVLine
    show (splitCSVAux ('"' :: (escCSV f ++ '"' :: ',' :: g)) false []).map
      (fun l => String.mk l) = _
    rw [splitCSVAux_open, splitCSVAux_esc f g []]
    have hcomma : splitCSVAux (',' :: g) false (f.reverse ++ []) =
        (f.reverse ++ []).reverse :: splitCSVAux g false [] := rfl
    rw [hcomma, splitCSVAux_plain g [] h]
    simp
  · intro st
    rfl

/-- C7 witness: the general quoted-field property at a concrete field
containing a comma and a doubled quote. -/
theorem claim_C7_witness :
    splitCSVLine ⟨'"' :: (escCSV ("Smith, \"The Rock\"".data) ++ '"' :: ',' :: "HT1".data)⟩
      = [⟨"Smith, \"The Rock\"".data⟩, ⟨"HT1".data⟩] ∧
    (importDataFromFile "players.csv"
        "rank,name,tier,points\n1,\"Smith, \"\"The Rock\"\"\",HT1,100" none
        ⟨none, none, [], mappingDefault, []⟩).players
      = [⟨some 1, "Smith, \"The Rock\"", "HT1", some 100⟩] := by
  exact ⟨claim_C7_csv_quoted_fields.1 ("Smith, \"The Rock\"".data) ("HT1".data) (by decide),
    claim_C7_csv_quoted_fields.2 ⟨none, none, [], mappingDefault, []⟩⟩

/-! ## Claim C8 -/

/-- C8: applying the mapping.  `applyMappingToAllPlayers` (confirmed)
rewrites every record's points to `Number(mapping[tier] ?? 0)` — in
particular to the mapping's numeric value whenever the tier is present —
overwriting any prior value; `applyMappingToEmptyPlayers` rewrites only
records whose points is 0 (or NaN) and leaves records with nonzero points
entirely unchanged. -/
theorem claim_C8_apply_mapping (st : EditorState) :
    ((applyMappingToAllPlayers true st).players = st.players.map (fun p =>
      { p with points := toNumber (jsNvl (objLookup st.tierMapping p.tier) (.num 0)) })) ∧
    (∀ (i : Nat) (p : Player), st.players[i]? = some p →
      (applyMappingToAllPlayers true st).players[i]? = some
        { p with points := toNumber (jsNvl (objLookup st.tierMapping p.tier) (.num 0)) } ∧
      ∀ k, objLookup st.tierMapping p.tier = some (.num k) →
        toNumber (jsNvl (objLookup st.tierMapping p.tier) (.num 0)) = some k) ∧
    (∀ (i : Nat) (p : Player), st.players[i]? = some p →
      (∀ k, p.points = some k → k ≠ 0 →
        (applyMappingToEmptyPlayers st).players[i]? = some p) ∧
      ((p.points = some 0 ∨ p.points = none) →
        (applyMappingToEmptyPlayers st).players[i]? = some
          { p with points := toNumber (jsNvl (objLookup st.tierMapping p.tier) (.num 0)) })) := by
  refine ⟨rfl, ?_, ?_⟩
  · intro i p hp
    constructor
    · have : (applyMappingToAllPlayers true st).players = st.players.map (fun p =>
          { p with points := toNumber (jsNvl (objLookup st.tierMapping p.tier) (.num 0)) }) :=
        rfl
      rw [this, List.getElem?_map, hp, Option.map_some']
    · intro k hk
      rw [hk]
      rfl
  · intro i p hp
    have hmap : (applyMappingToEmptyPlayers st).players = st.players.map (fun p =>
        if !(match p.points with | some k => k ≠ 0 | none => false)
        then { p with points := toNumber (jsNvl (objLookup st.tierMapping p.tier) (.num 0)) }
        else p) := rfl
    constructor
    · intro k hk hk0
      rw [hmap, List.getElem?_map, hp, Option.map_some']
      have hcond : (!(match p.points with | some k => k ≠ 0 | none => false)) = false := by
        rw [hk]
        simp [hk0]
      rw [if_neg (by rw [hcond]; exact fun h => nomatch h)]
    · intro hk
      rw [hmap, List.getElem?_map, hp, Option.map_some']
      have hcond : (!(match p.points with | some k => k ≠ 0 | none => false)) = true := by
        rcases hk with hk | hk <;> rw [hk] <;> simp
      rw [if_pos (by rw [hcond])]

/-- C8 witness: a three-record state — points 0 gets the mapped value,
points 42 stays, NaN points gets the (absent-tier) default 0; and
apply-to-all overwrites a nonzero value with the mapped one. -/
theorem claim_C8_witness :
    ((applyMappingToEmptyPlayers ⟨none, none, [⟨some 1, "A", "HT1", some 0⟩,
      ⟨some 2, "B", "LT5", some 42⟩, ⟨some 3, "C", "ZZ", none⟩], mappingDefault, []⟩).players[1]?
        = some ⟨some 2, "B", "LT5", some 42⟩) ∧
    ((applyMappingToEmptyPlayers ⟨none, none, [⟨some 1, "A", "HT1", some 0⟩,
      ⟨some 2, "B", "LT5", some 42⟩, ⟨some 3, "C", "ZZ", none⟩], mappingDefault, []⟩).players[0]?
        = some ⟨some 1, "A", "HT1", some 100⟩) ∧
    ((applyMappingToAllPlayers true ⟨none, none, [⟨some 2, "B", "LT5", some 42⟩],
      mappingDefault, []⟩).players[0]? = some ⟨some 2, "B", "LT5", some 10⟩) := by
  refine ⟨?_, ?_, ?_⟩
  · exact ((claim_C8_apply_mapping ⟨none, none, [⟨some 1, "A", "HT1", some 0⟩,
        ⟨some 2, "B", "LT5", some 42⟩, ⟨some 3, "C", "ZZ", none⟩],
        mappingDefault, []⟩).2.2 1 ⟨some 2, "B", "LT5", some 42⟩ rfl).1 42 rfl (by decide)
  · exact ((claim_C8_apply_mapping ⟨none, none, [⟨some 1, "A", "HT1", some 0⟩,
        ⟨some 2, "B", "LT5", some 42⟩, ⟨some 3, "C", "ZZ", none⟩],
        mappingDefault, []⟩).2.2 0 ⟨some 1, "A", "HT1", some 0⟩ rfl).2 (Or.inl rfl)
  · exact ((claim_C8_apply_mapping ⟨none, none, [⟨some 2, "B", "LT5", some 42⟩],
        mappingDefault, []⟩).2.1 0 ⟨some 2, "B", "LT5", some 42⟩ rfl).1

/-! ## Claim C9 -/

/-- `findIndex` returns the position of the first match, with every
earlier element failing the predicate. -/
theorem findIndexJS_first (pred : α → Bool) :
    ∀ (l : List α) (x : α), x ∈ l → pred x = true →
      ∃ n : Nat, findIndexJS pred l = (n : Int) ∧
        (∃ y, l[n]? = some y ∧ pred y = true) ∧
        ∀ j < n, ∀ y, l[j]? = some y → pred y = false := by
  intro l
  induction l with
  | nil => intro x hx; cases hx
  | cons a l' ih =>
    intro x hx hpx
    by_cases hpa : pred a = true
    · refine ⟨0, ?_, ⟨a, by simp, hpa⟩, by omega⟩
      unfold findIndexJS
      rw [if_pos hpa]
      simp
    · have hx' : x ∈ l' := by
        rcases List.mem_cons.mp hx with rfl | h
        · exact absurd hpx hpa
        · exact h
      obtain ⟨n, hn, ⟨y, hy, hpy⟩, hmin⟩ := ih x hx' hpx
      refine ⟨n + 1, ?_, ⟨y, by simpa using hy, hpy⟩, ?_⟩
      · unfold findIndexJS
        rw [if_neg (by simp [hpa])]
        show (if findIndexJS pred l' = -1 then (-1 : Int)
          else findIndexJS pred l' + 1) = ((n + 1 : Nat) : Int)
        have hne : ((n : Int)) ≠ -1 := by omega
        rw [hn, if_neg hne]
        push_cast
        ring
      · intro j hj y' hy'
        cases j with
        | zero =>
          simp only [List.getElem?_cons_zero] at hy'
          rw [← Option.some.inj hy']
          revert hpa
          cases pred a <;> simp
        | succ j' =>
          simp only [List.getElem?_cons_succ] at hy'
          exact hmin j' (by omega) y' hy'

/-- The row handler's strict-equality content match succeeds exactly on
records equal to the displayed row, when the row's numbers are actual
numbers (display and `Number()` readback round-trip). -/
theorem rowMatches_iff (row p : Player) (a b : Int)
    (ha : row.rank = some a) (hb : row.points = some b) :
    (rowMatches (numCellText row.rank) row.name row.tier (numCellText row.points) p
      = true) ↔ p = row := by
  have hra : numCellText row.rank = intToString a := by rw [ha]; rfl
  have hrb : numCellText row.points = intToString b := by rw [hb]; rfl
  unfold rowMatches
  rw [hra, hrb, jsStringToNumber_intToString, jsStringToNumber_intToString]
  constructor
  · intro h
    simp only [Bool.and_eq_true, decide_eq_true_eq] at h
    obtain ⟨⟨⟨h1, h2⟩, h3⟩, h4⟩ := h
    have hr : p.rank = row.rank := by
      rw [ha]
      cases hpr : p.rank with
      | none => rw [hpr] at h1; cases h1
      | some x =>
        rw [hpr] at h1
        unfold strictNumEq at h1
        simp at h1
        rw [h1]
    have hp : p.points = row.points := by
      rw [hb]
      cases hpp : p.points with
      | none => rw [hpp] at h4; cases h4
      | some x =>
        rw [hpp] at h4
        unfold strictNumEq at h4
        simp at h4
        rw [h4]
    cases p; cases row
    simp only at hr hp h2 h3 ⊢
    rw [hr, h2, h3, hp]
  · intro h
    subst h
    rw [ha, hb]
    simp [strictNumEq]

/-- C9: row Edit and Delete resolve their target by content equality.
For a displayed row with actual numbers present in the canonical list,
the resolved index is the first index holding a record with exactly the
row's four field values; every earlier record differs; the Edit target is
that record; and a confirmed Delete removes exactly that record.  So with
duplicate records the earliest one is always acted on, whichever
duplicate row was clicked. -/
theorem claim_C9_row_actions_first_content_match (st : EditorState) (row : Player)
    (a b : Int) (ha : row.rank = some a) (hb : row.points = some b)
    (hmem : row ∈ st.players) :
    ∃ n : Nat, resolveRowIndex st.players row = (n : Int) ∧
      st.players[n]? = some row ∧
      (∀ j < n, ∀ q, st.players[j]? = some q → q ≠ row) ∧
      startEditTarget (resolveRowIndex st.players row) st.players = some row ∧
      doDelete true (resolveRowIndex st.players row) st =
        savePlayers { st with players := st.players.eraseIdx n } := by
  have hpred : (rowMatches (numCellText row.rank) row.name row.tier
      (numCellText row.points)) row = true :=
    (rowMatches_iff row row a b ha hb).mpr rfl
  obtain ⟨n, hn, ⟨y, hy, hpy⟩, hmin⟩ :=
    findIndexJS_first (rowMatches (numCellText row.rank) row.name row.tier
      (numCellText row.points)) st.players row hmem hpred
  have hyrow : y = row := (rowMatches_iff row y a b ha hb).mp hpy
  rw [hyrow] at hy
  have hres : resolveRowIndex st.players row = (n : Int) := hn
  have hneq : ((n : Int)) ≠ -1 := by omega
  refine ⟨n, hres, hy, ?_, ?_, ?_⟩
  · intro j hj q hq hcontra
    have hfalse := hmin j hj q hq
    rw [hcontra, hpred] at hfalse
    cases hfalse
  · unfold startEditTarget
    rw [hres, if_neg hneq]
    simpa using hy
  · unfold doDelete
    rw [hres, if_neg hneq]
    have htn : ((n : Int)).toNat = n := Int.toNat_natCast n
    simp [htn]

/-- C9 witness: with two identical records, clicking (either) displayed
duplicate deletes the first record. -/
theorem claim_C9_witness :
    ∃ n : Nat,
      resolveRowIndex [⟨some 1, "X", "HT1", some 9⟩, ⟨some 1, "X", "HT1", some 9⟩]
        ⟨some 1, "X", "HT1", some 9⟩ = (n : Int) ∧
      [(⟨some 1, "X", "HT1", some 9⟩ : Player), ⟨some 1, "X", "HT1", some 9⟩][n]?
        = some ⟨some 1, "X", "HT1", some 9⟩ ∧ n = 0 := by
  obtain ⟨n, hn, hy, hmin, _, _⟩ :=
    claim_C9_row_actions_first_content_match
      ⟨none, none, [⟨some 1, "X", "HT1", some 9⟩, ⟨some 1, "X", "HT1", some 9⟩],
        mappingDefault, []⟩
      ⟨some 1, "X", "HT1", some 9⟩ 1 9 rfl rfl (by simp)
  refine ⟨n, hn, hy, ?_⟩
  by_contra h0
  exact (hmin 0 (by omega) ⟨some 1, "X", "HT1", some 9⟩ rfl) rfl

/-! ## Claim C10 -/

/-- Every list the form-submit sort produces is pairwise ordered by
`rank || 0`. -/
theorem jsSortByRank_sorted (l : List Player) :
    List.Pairwise (fun a b : Player => rankOr0 a ≤ rankOr0 b) (jsSortByRank l) := by
  have hs := List.sorted_insertionSort (fun a b : Player => rankOr0 a - rankOr0 b ≤ 0) l
  exact hs.imp (fun hab => by omega)

/-- C10: after every successful form submission (non-empty trimmed name),
the in-memory player list is sorted ascending by rank (`rank || 0`, so a
NaN rank counts as 0) and exactly that sorted list is persisted; by
contrast a JSON import persists its list as given — importing records
with ranks `[2, 1]` leaves them in that unsorted order. -/
theorem claim_C10_submit_persists_sorted (st : EditorState)
    (rankS nameS tierS pointsS : String) (editingId : Option Nat)
    (h : jsTrim nameS ≠ "") :
    List.Pairwise (fun a b : Player => rankOr0 a ≤ rankOr0 b)
      (playerFormSubmit rankS nameS tierS pointsS editingId st).players ∧
    (playerFormSubmit rankS nameS tierS pointsS editingId st).storePlayers
      = some (.json (storedOfPlayers
          (playerFormSubmit rankS nameS tierS pointsS editingId st).players)) ∧
    ((importDataFromFile "d.json" "" (some (.arr [.obj [("rank", .num 2)],
        .obj [("rank", .num 1)]])) ⟨none, none, [], mappingDefault, []⟩).players.map rankOr0
      = [2, 1]) := by
  unfold playerFormSubmit
  rw [if_neg h]
  exact ⟨jsSortByRank_sorted _, rfl, rfl⟩

/-- C10 witness: adding rank 3 to a `[5, 2]`-ranked list persists the
rank-sorted list `[2, 3, 5]`. -/
theorem claim_C10_witness :
    List.Pairwise (fun a b : Player => rankOr0 a ≤ rankOr0 b)
      (playerFormSubmit "3" "Carl" "HT2" "" none
        ⟨none, none, [⟨some 5, "A", "HT1", some 1⟩, ⟨some 2, "B", "LT5", some 2⟩],
          mappingDefault, []⟩).players ∧
    (playerFormSubmit "3" "Carl" "HT2" "" none
        ⟨none, none, [⟨some 5, "A", "HT1", some 1⟩, ⟨some 2, "B", "LT5", some 2⟩],
          mappingDefault, []⟩).players.map rankOr0 = [2, 3, 5] := by
  refine ⟨(claim_C10_submit_persists_sorted
    ⟨none, none, [⟨some 5, "A", "HT1", some 1⟩, ⟨some 2, "B", "LT5", some 2⟩],
      mappingDefault, []⟩ "3" "Carl" "HT2" "" none (by decide)).1, ?_⟩
  rfl

end MCTiers
